import Mathlib

/-!
Verification of the block-translate template-tag backport
(src/privex/adminplus/backports/templatetags/blocktranslate.py).

The Python module defines three renderer node classes (TranslateNode,
BlockTranslateNode, LanguageNode) and two tag parsers (do_translate,
do_block_translate).  This file gives a shallow embedding of those
definitions and proves the specification claims about them.

External framework pieces (django.template / django.utils.translation)
are modelled as explicit parameters or small concrete definitions, each
documented at its declaration.
-/

set_option linter.unusedVariables false

namespace AdminPlus

/-- Template token kinds, modelling django.template.base.TokenType.
Only TEXT and VAR are inspected by the tag; BLOCK and COMMENT stand for
every other kind. -/
inductive TokType where
  | text
  | var
  | block
  | comment
deriving DecidableEq, Repr

/-- A raw template token: its kind and its contents string. -/
structure Tok where
  token_type : TokType
  contents : String
deriving DecidableEq, Repr

/-- A template value: either a string or an integer.  Stands for the
Python objects that flow through the renderer (strings and counts). -/
inductive Value where
  | s (v : String)
  | n (v : Int)
deriving DecidableEq, Repr

/-- Stringification of a value, modelling render_value_in_context /
str() on the Python side. -/
def Value.asString : Value → String
  | .s v => v
  | .n v => toString v

/-- Python truthiness of a value: empty string and zero are falsy. -/
def Value.truthy : Value → Bool
  | .s v => !v.isEmpty
  | .n v => v != 0

/-- One context scope: an insertion-ordered association list, modelling
one dict on the Django context stack. -/
abbrev Scope : Type := List (String × Value)

/-- Setting a key in a scope: replace an existing entry in place,
otherwise append, exactly like assignment into a Python dict. -/
def scopeSet (sc : Scope) (k : String) (v : Value) : Scope :=
  if sc.any (fun p => p.1 == k) then
    sc.map (fun p => if p.1 = k then (k, v) else p)
  else
    sc ++ [(k, v)]

/-- The template context, modelling django.template.Context: a stack of
scopes (head = most recently pushed, i.e. Django's dicts[-1]) plus the
engine's string_if_invalid setting. -/
structure Context where
  dicts : List Scope
  string_if_invalid : String
deriving DecidableEq, Repr

/-- Lookup scanning the scope stack from the most recent scope down,
modelling BaseContext.__getitem__ / __contains__. -/
def lookupDicts : List Scope → String → Option Value
  | [], _ => none
  | d :: ds, k =>
    match (d : List (String × Value)).find? (fun p => p.1 == k) with
    | some p => some p.2
    | none => lookupDicts ds k

/-- Context lookup (top scope first). -/
def Context.lookup (ctx : Context) (k : String) : Option Value :=
  lookupDicts ctx.dicts k

/-- Key-assignment into the top scope, modelling context[key] = value
(Django writes into dicts[-1]). -/
def Context.set (ctx : Context) (k : String) (v : Value) : Context :=
  match ctx.dicts with
  | [] => ctx
  | d :: ds => { ctx with dicts := scopeSet d k v :: ds }

/-- Pushing a new scope, modelling context.update({...}). -/
def Context.push (ctx : Context) (d : Scope) : Context :=
  { ctx with dicts := d :: ctx.dicts }

/-- Popping the top scope, modelling context.pop(). -/
def Context.pop (ctx : Context) : Context :=
  { ctx with dicts := ctx.dicts.tail }

/-- A compiled expression, modelling the framework FilterExpression
restricted to the forms the tags produce: a string literal, a numeric
literal, or a plain variable reference. -/
inductive Expr where
  | lit (s : String)
  | litn (n : Int)
  | var (name : String)
deriving DecidableEq, Repr

/-- Expression resolution against a context.  An unresolvable variable
collapses to the empty string (no claim depends on that corner). -/
def Expr.resolve (e : Expr) (ctx : Context) : Value :=
  match e with
  | .lit s => .s s
  | .litn n => .n n
  | .var name => (ctx.lookup name).getD (.s "")

/-- The translation catalog, modelling the django.utils.translation
functions the renderer calls (spec section 6: the external collaborator
supplying gettext / ngettext / pgettext / npgettext). -/
structure Catalog where
  gettext : String → String
  pgettext : String → String → String
  ngettext : String → String → Value → String
  npgettext : String → String → String → Value → String

/-- The untranslated catalog, modelling django.utils.translation with
translation deactivated (translation.override(None) → trans_null):
gettext is the identity and ngettext applies the n == 1 rule. -/
def nullCatalog : Catalog where
  gettext := id
  pgettext := fun _ s => s
  ngettext := fun s p nv => if nv = .n 1 then s else p
  npgettext := fun _ s p nv => if nv = .n 1 then s else p

/-- Doubling every percent sign in a character list, modelling the
Python expression contents.replace('%', '%%') (a single-character
pattern, so it expands each '%' independently). -/
def escapePct : List Char → List Char
  | [] => []
  | c :: cs => if c = '%' then '%' :: '%' :: escapePct cs else c :: escapePct cs

/-- String wrapper for escapePct. -/
def doublePctStr (s : String) : String := String.mk (escapePct s.data)

/-- Halving doubled percent signs, modelling the Python expression
value.replace('%%', '%'): a left-to-right, non-overlapping scan. -/
def halvePct : List Char → List Char
  | [] => []
  | '%' :: '%' :: cs => '%' :: halvePct cs
  | c :: cs => c :: halvePct cs

/-- String wrapper for halvePct. -/
def halvePctStr (s : String) : String := String.mk (halvePct s.data)

/-- Outcomes of Python %-formatting that the renderer distinguishes:
KeyError (missing mapping key), ValueError (malformed format), and any
other host exception (e.g. TypeError), which the renderer's
except (KeyError, ValueError) clause does not catch. -/
inductive FErr where
  | keyErr (k : String)
  | valueErr
  | uncaughtErr
deriving DecidableEq, Repr

/-- Whether a formatting error is caught by except (KeyError, ValueError). -/
def FErr.caught : FErr → Bool
  | .keyErr _ => true
  | .valueErr => true
  | .uncaughtErr => false

/-- Conversion characters whose use on the string-valued substitution
data would raise an error outside (KeyError, ValueError) in the host
(TypeError territory), hence uncaught by the renderer. -/
def convUncaught (c : Char) : Bool :=
  c = 'd' || c = 'i' || c = 'u' || c = 'f' || c = 'F' || c = 'g' || c = 'G' ||
  c = 'e' || c = 'E' || c = 'c' || c = 'x' || c = 'X' || c = 'o'

/-- Scanner state for the %-formatting interpreter. -/
inductive FmtMode where
  | plain
  | afterPct
  | inKey (depth : Nat) (keyRev : List Char)
  | afterKey (key : List Char)
deriving DecidableEq, Repr

/-- Interpreter for Python mapping-based %-formatting, restricted to the
fragment this tag exercises: '%%' escapes and '%(name)s' placeholders
(the only specifiers render_token_list emits).  A parenthesised key is
scanned with balanced parentheses as CPython does; an incomplete format
or format key is a ValueError; an unknown conversion character is a
ValueError; numeric conversions and bare specifiers on a mapping are
conservatively mapped to the uncaught-error outcome. -/
def fmtGo (data : List (String × String)) : FmtMode → List Char → Except FErr (List Char)
  | .plain, [] => .ok []
  | .plain, c :: cs =>
    if c = '%' then fmtGo data .afterPct cs
    else (fmtGo data .plain cs).map (fun t => c :: t)
  | .afterPct, [] => .error .valueErr
  | .afterPct, c :: cs =>
    if c = '%' then (fmtGo data .plain cs).map (fun t => '%' :: t)
    else if c = '(' then fmtGo data (.inKey 0 []) cs
    else .error .uncaughtErr
  | .inKey _ _, [] => .error .valueErr
  | .inKey depth kr, c :: cs =>
    if c = ')' then
      if depth = 0 then fmtGo data (.afterKey kr.reverse) cs
      else fmtGo data (.inKey (depth - 1) (c :: kr)) cs
    else if c = '(' then fmtGo data (.inKey (depth + 1) (c :: kr)) cs
    else fmtGo data (.inKey depth (c :: kr)) cs
  | .afterKey _, [] => .error .valueErr
  | .afterKey key, c :: cs =>
    if c = 's' then
      match data.lookup (String.mk key) with
      | none => .error (.keyErr (String.mk key))
      | some v => (fmtGo data .plain cs).map (fun t => v.data ++ t)
    else if convUncaught c then .error .uncaughtErr
    else .error .valueErr

/-- Python %-formatting of a string against a mapping, modelling the
expression result % data in BlockTranslateNode.render. -/
def pyFormat (s : String) (data : List (String × String)) : Except FErr String :=
  (fmtGo data .plain s.data).map String.mk

/-- Whitespace-run collapsing used by trim_whitespace: a maximal
whitespace run containing a newline becomes a single space; other runs
are kept.  This models the regex substitution of the pattern
"\s*\n\s*" by a single space in django.utils.translation.trim_whitespace. -/
def collapseWs : List Char → List Char → Bool → List Char
  | [], runRev, hasNl =>
    if runRev.isEmpty then [] else if hasNl then [' '] else runRev.reverse
  | c :: cs, runRev, hasNl =>
    if c.isWhitespace then collapseWs cs (c :: runRev) (hasNl || c = '\n')
    else
      (if runRev.isEmpty then [] else if hasNl then [' '] else runRev.reverse) ++
        c :: collapseWs cs [] false

/-- Modelling the Python str.strip() method: drop whitespace from both
ends. -/
def pyStrip (s : String) : String :=
  String.mk (((s.data.dropWhile Char.isWhitespace).reverse.dropWhile
    Char.isWhitespace).reverse)

/-- Modelling django.utils.translation.trim_whitespace: strip the ends,
then collapse newline-containing whitespace runs to single spaces. -/
def trim_whitespace (s : String) : String :=
  String.mk (collapseWs (pyStrip s).data [] false)

/-- Errors raised by the tag parser and renderer.  Each constructor
stands for one TemplateSyntaxError raise site in the Python module and
carries the data interpolated into its message; hostError stands for a
host exception propagating through the renderer uncaught. -/
inductive TErr where
  | optionTwice (opt : String)
  | withNeedsArg (tag : String)
  | countNeedsOne (tag : String)
  | contextNeedsOne (tag : String)
  | asvarNeedsArg (tag : String)
  | unknownArg (tag : String) (opt : String)
  | noOtherTags (tag : String)
  | noOtherTagsSeen (tag : String) (seen : String)
  | cannotFormat (tag : String) (result : String) (data : List (String × String))
  | hostError
deriving DecidableEq, Repr

/-- The blocktranslate directive, modelling BlockTranslateNode.__init__:
field per constructor argument.  plural = [] models Python plural=None
or an empty plural list (both falsy, indistinguishable to render). -/
structure BlockTranslateNode where
  extra_context : List (String × Expr)
  singular : List Tok
  plural : List Tok
  countervar : Option String
  counter : Option Expr
  message_context : Option Expr
  trimmed : Bool
  asvar : Option String
  tag_name : String
deriving DecidableEq, Repr

/-- Python truthiness of an optional string (None and the empty string
are falsy). -/
def truthyOptStr : Option String → Bool
  | none => false
  | some s => !s.isEmpty

/-- Modelling BlockTranslateNode.render_token_list: TEXT tokens have
their percent signs doubled, VAR tokens become percent-(name)-s
placeholder slots and are recorded, and the result is optionally
whitespace-trimmed. -/
def tokenPieces : List Tok → List Char × List String
  | [] => ([], [])
  | t :: ts =>
    let (m, vs) := tokenPieces ts
    match t.token_type with
    | .text => (escapePct t.contents.data ++ m, vs)
    | .var => ('%' :: '(' :: (t.contents.data ++ ')' :: 's' :: m), t.contents :: vs)
    | _ => (m, vs)

/-- The (message, variables) pair produced from a token list, including
the trimmed option, as in render_token_list. -/
def render_token_list (trimmed : Bool) (tokens : List Tok) : String × List String :=
  let (m, vs) := tokenPieces tokens
  (if trimmed then trim_whitespace (String.mk m) else String.mk m, vs)

/-- The message context resolved at the top of render: absent when the
node has none, and treated as absent by the later truthiness tests when
it resolves to a falsy value. -/
def resolveMsgContext (node : BlockTranslateNode) (ctx : Context) : Option String :=
  match node.message_context with
  | none => none
  | some e =>
    let v := e.resolve ctx
    if v.truthy then some v.asString else none

/-- Intermediate state of BlockTranslateNode.render after the catalog
lookup: the catalog result string, the placeholder names collected from
the token lists, and the context with the temporary scope pushed (and
the counter variable bound in the plural case). -/
structure BTPrep where
  resultStr : String
  vars : List String
  ctx2 : Context
deriving DecidableEq, Repr

/-- The first half of BlockTranslateNode.render: resolve the message
context, push the with-bindings as a new scope, render the singular
token list, and in the plural case (plural truthy and countervar truthy
and counter present) resolve and bind the count and call the plural
catalog function, otherwise call the singular one. -/
def btPrepare (cat : Catalog) (node : BlockTranslateNode) (ctx : Context) : BTPrep :=
  let mc := resolveMsgContext node ctx
  let ctx1 := ctx.push (node.extra_context.map (fun p => (p.1, p.2.resolve ctx)))
  let sv := render_token_list node.trimmed node.singular
  let nonPlural : BTPrep :=
    ⟨(match mc with
      | some c => cat.pgettext c sv.1
      | none => cat.gettext sv.1), sv.2, ctx1⟩
  match node.plural, node.countervar, node.counter with
  | _ :: _, some cv, some ce =>
    if cv.isEmpty then nonPlural
    else
      let count := ce.resolve ctx1
      let ctx2 := ctx1.set cv count
      let pv := render_token_list node.trimmed node.plural
      let result :=
        match mc with
        | some c => cat.npgettext c sv.1 pv.1 count
        | none => cat.ngettext sv.1 pv.1 count
      ⟨result, sv.2 ++ pv.2, ctx2⟩
  | _, _, _ => nonPlural

/-- Occurrence test for a percent-s slot, used on string_if_invalid. -/
def containsPctS : List Char → Bool
  | [] => false
  | '%' :: 's' :: _ => true
  | _ :: cs => containsPctS cs

/-- Substitution of percent-s slots by the key, modelling the host
expression default_value % key on the engine's string_if_invalid. -/
def substPctS : List Char → List Char → List Char
  | [], _ => []
  | '%' :: 's' :: cs, key => key ++ substPctS cs key
  | c :: cs, key => c :: substPctS cs key

/-- Modelling the local function render_value in
BlockTranslateNode.render: a bound placeholder renders its context
value; an unbound one falls back to string_if_invalid, with a
percent-s slot in it replaced by the placeholder name. -/
def render_value (ctx2 : Context) (default_value : String) (key : String) : String :=
  match ctx2.lookup key with
  | some v => v.asString
  | none =>
    if containsPctS default_value.data then
      String.mk (substPctS default_value.data key.data)
    else default_value

/-- The substitution data built in render: one entry per collected
placeholder name, in order. -/
def btDataOf (pre : BTPrep) : List (String × String) :=
  pre.vars.map (fun v => (v, render_value pre.ctx2 pre.ctx2.string_if_invalid v))

/-- The tail of render: with asvar set, bind the result into the
context and emit the empty string, otherwise emit the result. -/
def applyAsvar (node : BlockTranslateNode) (r : String) (c : Context) : String × Context :=
  match node.asvar with
  | some a => ("", c.set a (.s r))
  | none => (r, c)

/-- Modelling BlockTranslateNode.render.  The catalog parameter stands
for the active translation; the one-time retry under
translation.override(None) is the recursive call with nullCatalog and
nested = true.  The returned context is the visible final state of the
context object. -/
def BlockTranslateNode.render (cat : Catalog) (node : BlockTranslateNode)
    (ctx : Context) (nested : Bool) : Except TErr (String × Context) :=
  let pre := btPrepare cat node ctx
  let data := btDataOf pre
  let ctx3 := pre.ctx2.pop
  match pyFormat pre.resultStr data with
  | .ok r => .ok (applyAsvar node r ctx3)
  | .error fe =>
    if fe.caught then
      if h : nested then
        .error (.cannotFormat node.tag_name pre.resultStr data)
      else
        match BlockTranslateNode.render nullCatalog node ctx3 true with
        | .error e => .error e
        | .ok (r, c4) => .ok (applyAsvar node r c4)
    else .error .hostError
termination_by (if nested then 0 else 1)
decreasing_by simp_all

/-- The translate directive, modelling TranslateNode.__init__. -/
structure TranslateNode where
  filter_expression : Expr
  noop : Bool
  asvar : Option String
  message_context : Option Expr
deriving DecidableEq, Repr

/-- The looked-up value in TranslateNode.render: the resolved
expression itself under noop, otherwise its catalog translation, with
pgettext when a message context expression is attached.  This models
the framework's Variable.resolve acting on the translate and
message_context attributes the render method sets. -/
def TranslateNode.lookupValue (cat : Catalog) (node : TranslateNode) (ctx : Context) : String :=
  let v0 := node.filter_expression.resolve ctx
  if node.noop then v0.asString
  else
    match node.message_context with
    | some e => cat.pgettext (e.resolve ctx).asString v0.asString
    | none => cat.gettext v0.asString

/-- Modelling TranslateNode.render: look the value up, restore doubled
percent signs, then either bind under asvar and emit the empty string
or emit the value.  Safe-string marking is not modelled (all values are
plain strings here). -/
def TranslateNode.render (cat : Catalog) (node : TranslateNode) (ctx : Context) :
    String × Context :=
  let value := halvePctStr (TranslateNode.lookupValue cat node ctx)
  match node.asvar with
  | some a => ("", ctx.set a (.s value))
  | none => (value, ctx)

/-- The process-wide translation state: the active language, the shared
mutable resource that translation.override saves and restores. -/
structure TransState where
  active : Option String
deriving DecidableEq, Repr

/-- The language-scope directive, modelling LanguageNode.__init__; the
wrapped nodelist is supplied to render as a function parameter since it
is arbitrary framework-rendered content. -/
structure LanguageNode where
  language : Expr
deriving DecidableEq, Repr

/-- Modelling LanguageNode.render: resolve the language, run the
nested nodelist under translation.override of that language, and
restore the previously active language on exit.  The nodelist returns
the possibly-updated translation state together with either an output
or an error; the context-manager exit runs in both cases, so the
resulting state always has the caller's active language. -/
def LanguageNode.render {ε : Type} (node : LanguageNode) (ctx : Context)
    (nodelist : TransState → Context → TransState × Except ε (String × Context))
    (st : TransState) : TransState × Except ε (String × Context) :=
  let lang := (node.language.resolve ctx).asString
  let pr := nodelist { active := some lang } ctx
  ({ pr.1 with active := st.active }, pr.2)

/-- Word characters as in the framework's kwarg pattern. -/
def isWordChar (c : Char) : Bool := c.isAlphanum || c = '_'

/-- Digits-to-number accumulation for numeric literals. -/
def digitsToNat (cs : List Char) : Nat :=
  cs.foldl (fun acc c => acc * 10 + (c.toNat - 48)) 0

/-- Modelling parser.compile_filter restricted to the argument forms
exercised here: a quoted string compiles to a string literal, an
all-digit token to a numeric literal, anything else to a variable
reference. -/
def compile_filter (s : String) : Expr :=
  let cs := s.data
  let quote := Char.ofNat 39
  if 2 ≤ cs.length &&
      ((cs.head? == some '"' && cs.getLast? == some '"') ||
        (cs.head? == some quote && cs.getLast? == some quote)) then
    .lit (String.mk (cs.drop 1).dropLast)
  else if !cs.isEmpty && cs.all Char.isDigit then
    .litn (Int.ofNat (digitsToNat cs))
  else
    .var s

/-- The framework helper token_kwargs as an abstract collaborator: run
consumes a prefix of the remaining bits and returns the keyword
bindings it parsed (the items of the dict it builds, in insertion
order) together with the bits left over.  The consumes field records
the framework guarantee that only a prefix is consumed, which also
bounds the parser loop. -/
structure TokenKwargs where
  run : List String → List (String × Expr) × List String
  consumes : ∀ bits, (run bits).2.length ≤ bits.length

/-- Splitting a character list at its first equals sign. -/
def splitKVChars : List Char → Option (List Char × List Char)
  | [] => none
  | '=' :: rest => some ([], rest)
  | c :: rest =>
    match splitKVChars rest with
    | some (k, v) => some (c :: k, v)
    | none => none

/-- Splitting a name=value bit as the kwarg pattern does: a nonempty
word-character name, the first equals sign, a nonempty value (which may
itself contain further equals signs). -/
def splitKV (b : String) : Option (String × String) :=
  match splitKVChars b.data with
  | some (k, v) =>
    if !k.isEmpty && k.all isWordChar && !v.isEmpty then
      some (String.mk k, String.mk v)
    else none
  | none => none

/-- A concrete instantiation of token_kwargs covering the name=value
form, used to run the parser on concrete inputs: it consumes leading
name=value bits and stops at the first bit of any other shape. -/
def simpleKwRun : List String → List (String × Expr) × List String
  | [] => ([], [])
  | b :: rest =>
    match splitKV b with
    | some (k, v) =>
      let (kws, r) := simpleKwRun rest
      ((k, compile_filter v) :: kws, r)
    | none => ([], b :: rest)

/-- The concrete token_kwargs collaborator built from simpleKwRun. -/
def simpleTokKw : TokenKwargs where
  run := simpleKwRun
  consumes := by
    intro bits
    induction bits with
    | nil => simp [simpleKwRun]
    | cons b rest ih =>
      simp only [simpleKwRun]
      cases h : splitKV b with
      | some kv =>
        simp only [List.length_cons]
        exact Nat.le_succ_of_le ih
      | none => simp

/-- One recorded option value in the parser's options dict. -/
inductive OptVal where
  | kw (bindings : List (String × Expr))
  | filt (e : Expr)
  | flag
  | name (v : String)
deriving DecidableEq, Repr

/-- Membership of an option name in the options dict. -/
def optSeen (options : List (String × OptVal)) (o : String) : Bool :=
  options.any (fun p => p.1 == o)

/-- The option loop of do_block_translate: pop the next bit, reject a
repeated option, and dispatch on the option name exactly as the Python
while loop does, accumulating the options dict and the asvar variable. -/
def parseOpts (tag : String) (tk : TokenKwargs) :
    List String → List (String × OptVal) → Option String →
    Except TErr (List (String × OptVal) × Option String)
  | [], options, asvar => .ok (options, asvar)
  | option :: rest, options, asvar =>
    if optSeen options option then .error (.optionTwice option)
    else if option = "with" then
      let value := tk.run rest
      if value.1.isEmpty then .error (.withNeedsArg tag)
      else parseOpts tag tk value.2 (options ++ [("with", .kw value.1)]) asvar
    else if option = "count" then
      let value := tk.run rest
      if value.1.length ≠ 1 then .error (.countNeedsOne tag)
      else parseOpts tag tk value.2 (options ++ [("count", .kw value.1)]) asvar
    else if option = "context" then
      match rest with
      | [] => .error (.contextNeedsOne tag)
      | v :: rest2 =>
        parseOpts tag tk rest2 (options ++ [("context", .filt (compile_filter v))]) asvar
    else if option = "trimmed" then
      parseOpts tag tk rest (options ++ [("trimmed", .flag)]) asvar
    else if option = "asvar" then
      match rest with
      | [] => .error (.asvarNeedsArg tag)
      | v :: rest2 =>
        parseOpts tag tk rest2 (options ++ [("asvar", .name v)]) (some v)
    else .error (.unknownArg tag option)
termination_by bits _ _ => bits.length
decreasing_by
  all_goals simp_all only [List.length_cons]
  all_goals first
  | exact Nat.lt_succ_of_le (tk.consumes rest)
  | omega

/-- The body-collection loop of do_block_translate: starting from the
current token (initially the tag token itself), consume TEXT and VAR
tokens; return the collected body, the token variable's final value
(the stopping token, or the last consumed token if the stream ran out,
or the initial token if it was empty), and the unread rest. -/
def collectBody (cur : Tok) : List Tok → List Tok × Tok × List Tok
  | [] => ([], cur, [])
  | t :: rest =>
    if t.token_type == TokType.var || t.token_type == TokType.text then
      let (body, last, rem) := collectBody t rest
      (t :: body, last, rem)
    else ([], t, rest)

/-- First value recorded for an option name in the options dict. -/
def findOpt (options : List (String × OptVal)) (o : String) : Option OptVal :=
  (options.find? (fun p => p.1 == o)).map Prod.snd

/-- Extraction of countervar and counter from the options dict: the
first item of the count bindings, modelling next(iter(items)). -/
def countBinding (options : List (String × OptVal)) : Option String × Option Expr :=
  match findOpt options "count" with
  | some (.kw ((k, e) :: _)) => (some k, some e)
  | _ => ((none : Option String), (none : Option Expr))

/-- Extraction of the message context from the options dict. -/
def contextBinding (options : List (String × OptVal)) : Option Expr :=
  match findOpt options "context" with
  | some (.filt e) => some e
  | _ => none

/-- Extraction of the with-bindings from the options dict
(options.get('with', {})). -/
def withBindings (options : List (String × OptVal)) : List (String × Expr) :=
  match findOpt options "with" with
  | some (.kw kws) => kws
  | _ => []

/-- Extraction of the trimmed flag from the options dict
(options.get('trimmed', False)). -/
def trimmedFlag (options : List (String × OptVal)) : Bool :=
  match findOpt options "trimmed" with
  | some .flag => true
  | _ => false

/-- Modelling do_block_translate: parse the options, extract
countervar/counter from the single count binding, message context,
with-bindings and trimmed flag, then collect the singular body; with a
truthy countervar and a counter, require the plural separator tag and
collect the plural body; finally require the matching end tag, and
build the node. -/
def do_block_translate (tag : String) (tk : TokenKwargs) (bits : List String)
    (tagTok : Tok) (tokens : List Tok) : Except TErr BlockTranslateNode :=
  match parseOpts tag tk bits [] none with
  | .error e => .error e
  | .ok (options, asvar) =>
    let cv := countBinding options
    let message_context := contextBinding options
    let extra_context := withBindings options
    let trimmed := trimmedFlag options
    let sr := collectBody tagTok tokens
    if truthyOptStr cv.1 && cv.2.isSome then
      if pyStrip sr.2.1.contents ≠ "plural" then .error (.noOtherTags tag)
      else
        let pr := collectBody sr.2.1 sr.2.2
        if pyStrip pr.2.1.contents ≠ "end" ++ tag then
          .error (.noOtherTagsSeen tag pr.2.1.contents)
        else
          .ok ⟨extra_context, sr.1, pr.1, cv.1, cv.2, message_context, trimmed, asvar, tag⟩
    else
      if pyStrip sr.2.1.contents ≠ "end" ++ tag then
        .error (.noOtherTagsSeen tag sr.2.1.contents)
      else
        .ok ⟨extra_context, sr.1, [], cv.1, cv.2, message_context, trimmed, asvar, tag⟩

/-- The substitution step of BlockTranslateNode.render in isolation:
the outcome of formatting the catalog result with the resolved
placeholder data, for a given active catalog. -/
def btFmt (cat : Catalog) (node : BlockTranslateNode) (ctx : Context) : Except FErr String :=
  pyFormat (btPrepare cat node ctx).resultStr (btDataOf (btPrepare cat node ctx))

/-! Concrete inputs used to instantiate the theorems below. -/

/-- A one-scope context binding who to folks. -/
def wCtx : Context := ⟨[[("who", .s "folks")]], "INVALID"⟩

/-- A plain body: literal text followed by a variable slot. -/
def wNode : BlockTranslateNode :=
  ⟨[], [⟨.text, "Hello "⟩, ⟨.var, "who"⟩], [], none, none, none, false, none, "blocktranslate"⟩

/-- The same body with asvar set. -/
def wNodeAsvar : BlockTranslateNode :=
  ⟨[], [⟨.text, "Hello "⟩, ⟨.var, "who"⟩], [], none, none, none, false, some "x", "blocktranslate"⟩

/-- A body whose variable token has an unbalanced parenthesis in its
contents, producing a malformed placeholder so that even the
untranslated retry cannot be substituted. -/
def wNodeBadVar : BlockTranslateNode :=
  ⟨[], [⟨.var, "a(b"⟩], [], none, none, none, false, none, "blocktranslate"⟩

/-- A catalog whose translation is malformed: it returns a string with
a placeholder that is missing from the substitution data. -/
def wCatBad : Catalog :=
  ⟨fun _ => "%(missing)s", fun _ s => s, fun s _ _ => s, fun _ s _ _ => s⟩

/-- A catalog marking which lookup variant was used. -/
def wCatMark : Catalog :=
  ⟨fun s => "G:" ++ s, fun _ s => "P:" ++ s, fun s _ _ => "N:" ++ s,
    fun _ s _ _ => "NP:" ++ s⟩

/-- A one-scope context binding n to 5. -/
def wCtxN : Context := ⟨[[("n", .n 5)]], "INVALID"⟩

/-- A pluralizing directive with a nonempty plural body. -/
def wNodeCount : BlockTranslateNode :=
  ⟨[], [⟨.text, "one item"⟩], [⟨.var, "c"⟩, ⟨.text, " items"⟩], some "c", some (.var "n"),
    none, false, none, "blocktranslate"⟩

/-- A directive parsed from a count block whose plural body is empty. -/
def wNodeEmptyPlural : BlockTranslateNode :=
  ⟨[], [⟨.text, "one item"⟩], [], some "c", some (.var "n"), none, false, none,
    "blocktranslate"⟩

/-- The opening tag token of a concrete block. -/
def wTagTok : Tok := ⟨.block, "blocktranslate count n=5"⟩

/-- The end tag token. -/
def wEndTok : Tok := ⟨.block, "endblocktranslate"⟩

/-- The plural separator token. -/
def wPluralTok : Tok := ⟨.block, "plural"⟩

/-! Helper lemmas. -/

/-- Formatting a percent-doubled character list restores the original:
every doubled percent collapses and no other character is special. -/
theorem fmtGo_escapePct (data : List (String × String)) :
    ∀ cs : List Char, fmtGo data .plain (escapePct cs) = .ok cs := by
  intro cs
  induction cs with
  | nil => rfl
  | cons c cs ih =>
    by_cases h : c = '%'
    · subst h
      simp [escapePct, fmtGo, ih, Except.map]
    · simp [escapePct, fmtGo, h, ih, Except.map]

/-- String-level percent-doubling round trip through %-formatting. -/
theorem pyFormat_doublePct (s : String) (data : List (String × String)) :
    pyFormat (doublePctStr s) data = .ok s := by
  simp [pyFormat, doublePctStr, fmtGo_escapePct, Except.map]

/-- scopeSet preserves each entry's key. -/
theorem scopeSet_keyFix (a : String) (v : Value) (p : String × Value) :
    (if p.1 = a then (a, v) else p).1 = p.1 := by
  split <;> simp_all

/-- Finding a key other than the one just set is unchanged by the
map branch of scopeSet. -/
theorem find?_mapSet_ne (d : Scope) (a k : String) (v : Value) (h : k ≠ a) :
    (d.map (fun p => if p.1 = a then (a, v) else p)).find? (fun p => p.1 == k) =
      d.find? (fun p => p.1 == k) := by
  induction d with
  | nil => rfl
  | cons p ps ih =>
    rw [List.map_cons]
    by_cases hp : p.1 = k
    · have hpa : ¬p.1 = a := fun hc => h (by rw [← hp, hc])
      rw [if_neg hpa, List.find?_cons_of_pos _ (by simp [hp]),
        List.find?_cons_of_pos _ (by simp [hp])]
    · have hkey : (if p.1 = a then (a, v) else p).1 = p.1 := scopeSet_keyFix a v p
      rw [List.find?_cons_of_neg _ (by rw [hkey]; simp [hp]),
        List.find?_cons_of_neg _ (by simp [hp])]
      exact ih

/-- Finding a key other than the one just set is unchanged by scopeSet. -/
theorem find?_scopeSet_ne (d : Scope) (a k : String) (v : Value) (h : k ≠ a) :
    (scopeSet d a v).find? (fun p => p.1 == k) = d.find? (fun p => p.1 == k) := by
  unfold scopeSet
  split
  · exact find?_mapSet_ne d a k v h
  · rw [List.find?_append]
    have hne : (((a, v) : String × Value).1 == k) = false := by
      simp only [beq_eq_false_iff_ne, ne_eq]
      exact fun hc => h hc.symm
    have : ([(a, v)] : Scope).find? (fun p => p.1 == k) = none := by
      simp [List.find?, hne]
    rw [this]
    cases d.find? (fun p => p.1 == k) <;> rfl

/-- Context.set does not change lookups of other keys. -/
theorem Context.lookup_set_ne (c : Context) (a k : String) (v : Value) (h : k ≠ a) :
    (c.set a v).lookup k = c.lookup k := by
  rcases c with ⟨dicts, siv⟩
  cases dicts with
  | nil => rfl
  | cons d ds =>
    simp only [Context.set, Context.lookup, lookupDicts]
    rw [find?_scopeSet_ne d a k v h]

/-- Setting the same key twice keeps only the second value (scope level). -/
theorem scopeSet_scopeSet (d : Scope) (a : String) (v w : Value) :
    scopeSet (scopeSet d a v) a w = scopeSet d a w := by
  by_cases hany : (d.any fun p => p.1 == a) = true
  · have h1 : scopeSet d a v = d.map (fun p => if p.1 = a then (a, v) else p) := by
      unfold scopeSet
      rw [if_pos hany]
    have h3 : scopeSet d a w = d.map (fun p => if p.1 = a then (a, w) else p) := by
      unfold scopeSet
      rw [if_pos hany]
    have hany2 : ((d.map (fun p => if p.1 = a then (a, v) else p)).any
        fun p => p.1 == a) = true := by
      rw [List.any_map]
      rw [List.any_eq_true] at hany ⊢
      obtain ⟨p, hp, hpk⟩ := hany
      exact ⟨p, hp, by simp only [Function.comp_apply, scopeSet_keyFix]; exact hpk⟩
    have h2 : scopeSet (d.map (fun p => if p.1 = a then (a, v) else p)) a w =
        (d.map (fun p => if p.1 = a then (a, v) else p)).map
          (fun p => if p.1 = a then (a, w) else p) := by
      unfold scopeSet
      rw [if_pos hany2]
    rw [h1, h2, h3, List.map_map]
    apply List.map_congr_left
    intro p hp
    by_cases hpa : p.1 = a <;> simp [Function.comp_apply, hpa]
  · have h1 : scopeSet d a v = d ++ [(a, v)] := by
      unfold scopeSet
      rw [if_neg hany]
    have h3 : scopeSet d a w = d ++ [(a, w)] := by
      unfold scopeSet
      rw [if_neg hany]
    have hany2 : (((d ++ [(a, v)]) : Scope).any fun p => p.1 == a) = true := by
      rw [List.any_append]
      simp
    have h2 : scopeSet (d ++ [(a, v)]) a w =
        (d ++ [(a, v)]).map (fun p => if p.1 = a then (a, w) else p) := by
      unfold scopeSet
      rw [if_pos hany2]
    rw [h1, h2, h3, List.map_append]
    have hmap : d.map (fun p => if p.1 = a then (a, w) else p) = d := by
      have heq : d.map (fun p => if p.1 = a then (a, w) else p) = d.map id := by
        apply List.map_congr_left
        intro p hp
        have hpa : ¬p.1 = a := by
          rw [List.any_eq_true] at hany
          intro hc
          exact hany ⟨p, hp, by simp [hc]⟩
        simp [hpa]
      rw [heq, List.map_id]
    rw [hmap]
    simp

/-- Setting the same key twice keeps only the second value. -/
theorem Context.set_set (c : Context) (a : String) (v w : Value) :
    (c.set a v).set a w = c.set a w := by
  rcases c with ⟨dicts, siv⟩
  cases dicts with
  | nil => rfl
  | cons d ds => simp [Context.set, scopeSet_scopeSet]

/-- Context.set preserves the stack depth. -/
theorem Context.length_set (c : Context) (a : String) (v : Value) :
    (c.set a v).dicts.length = c.dicts.length := by
  rcases c with ⟨dicts, siv⟩
  cases dicts <;> rfl

/-- Context.set preserves string_if_invalid. -/
theorem Context.siv_set (c : Context) (a : String) (v : Value) :
    (c.set a v).string_if_invalid = c.string_if_invalid := by
  rcases c with ⟨dicts, siv⟩
  cases dicts <;> rfl

/-- Popping the scope that btPrepare pushed restores the context
exactly: render's context.pop() undoes its context.update(...), also
after the counter-variable assignment into the pushed scope. -/
theorem btPrepare_ctx2_pop (cat : Catalog) (node : BlockTranslateNode) (ctx : Context) :
    (btPrepare cat node ctx).ctx2.pop = ctx := by
  unfold btPrepare
  rcases hn : node.plural with _ | ⟨p, ps⟩ <;>
    rcases hc : node.countervar with _ | cv <;>
      rcases he : node.counter with _ | ce <;>
        simp [Context.push, Context.pop, Context.set]
  split <;> rfl

/-- The scope stack after btPrepare is exactly one deeper. -/
theorem btPrepare_ctx2_len (cat : Catalog) (node : BlockTranslateNode) (ctx : Context) :
    (btPrepare cat node ctx).ctx2.dicts.length = ctx.dicts.length + 1 := by
  unfold btPrepare
  rcases hn : node.plural with _ | ⟨p, ps⟩ <;>
    rcases hc : node.countervar with _ | cv <;>
      rcases he : node.counter with _ | ce <;>
        simp [Context.push, Context.pop, Context.set]
  split
  · rfl
  · simp [scopeSet]

/-- btPrepare leaves string_if_invalid unchanged on its working context. -/
theorem btPrepare_ctx2_siv (cat : Catalog) (node : BlockTranslateNode) (ctx : Context) :
    (btPrepare cat node ctx).ctx2.string_if_invalid = ctx.string_if_invalid := by
  unfold btPrepare
  rcases hn : node.plural with _ | ⟨p, ps⟩ <;>
    rcases hc : node.countervar with _ | cv <;>
      rcases he : node.counter with _ | ce <;>
        simp [Context.push, Context.pop, Context.set]
  split <;> rfl

/-- Unfolding equation for BlockTranslateNode.render, with the popped
working context rewritten back to the incoming context (the push/pop
pair cancels). -/
theorem render_unfold (cat : Catalog) (node : BlockTranslateNode) (ctx : Context)
    (nested : Bool) :
    BlockTranslateNode.render cat node ctx nested =
      (match btFmt cat node ctx with
       | .ok r => .ok (applyAsvar node r ctx)
       | .error fe =>
         if fe.caught then
           if nested then
             .error (.cannotFormat node.tag_name (btPrepare cat node ctx).resultStr
               (btDataOf (btPrepare cat node ctx)))
           else
             match BlockTranslateNode.render nullCatalog node ctx true with
             | .error e => .error e
             | .ok (r, c4) => .ok (applyAsvar node r c4)
         else .error .hostError) := by
  conv_lhs => rw [BlockTranslateNode.render.eq_def]
  simp only [btFmt, dite_eq_ite, btPrepare_ctx2_pop]

/-- Nested-render equation: on the retry there is no further retry —
a caught failure raises, an uncaught one propagates. -/
theorem render_true_eq (cat : Catalog) (node : BlockTranslateNode) (ctx : Context) :
    BlockTranslateNode.render cat node ctx true =
      (match btFmt cat node ctx with
       | .ok r => .ok (applyAsvar node r ctx)
       | .error fe =>
         if fe.caught then
           .error (.cannotFormat node.tag_name (btPrepare cat node ctx).resultStr
             (btDataOf (btPrepare cat node ctx)))
         else .error .hostError) := by
  rw [render_unfold]
  cases btFmt cat node ctx with
  | ok r => rfl
  | error e => cases hcg : e.caught <;> simp [hcg]

/-- First-attempt equation: a caught failure defers to the nested
retry, whose outcome is dispatched through applyAsvar again. -/
theorem render_false_eq (cat : Catalog) (node : BlockTranslateNode) (ctx : Context) :
    BlockTranslateNode.render cat node ctx false =
      (match btFmt cat node ctx with
       | .ok r => .ok (applyAsvar node r ctx)
       | .error fe =>
         if fe.caught then
           match BlockTranslateNode.render nullCatalog node ctx true with
           | .error er => .error er
           | .ok (r, c4) => .ok (applyAsvar node r c4)
         else .error .hostError) := by
  rw [render_unfold]
  cases btFmt cat node ctx with
  | ok r => rfl
  | error e => cases hcg : e.caught <;> simp [hcg]

/-- A successful substitution yields the asvar-dispatched result on the
restored context, for either value of nested. -/
theorem render_fmt_ok (cat : Catalog) (node : BlockTranslateNode) (ctx : Context)
    (nested : Bool) (r : String) (h : btFmt cat node ctx = .ok r) :
    BlockTranslateNode.render cat node ctx nested = .ok (applyAsvar node r ctx) := by
  rw [render_unfold, h]

/-- On the retry, a caught substitution failure raises the formatting
error naming the tag, the catalog result and the substitution data. -/
theorem render_true_fail (cat : Catalog) (node : BlockTranslateNode) (ctx : Context)
    (e : FErr) (h : btFmt cat node ctx = .error e) (hc : e.caught = true) :
    BlockTranslateNode.render cat node ctx true =
      .error (.cannotFormat node.tag_name (btPrepare cat node ctx).resultStr
        (btDataOf (btPrepare cat node ctx))) := by
  rw [render_unfold, h]
  simp [hc]

/-- On the first attempt, a caught substitution failure defers to the
single untranslated retry. -/
theorem render_false_fail (cat : Catalog) (node : BlockTranslateNode) (ctx : Context)
    (e : FErr) (h : btFmt cat node ctx = .error e) (hc : e.caught = true) :
    BlockTranslateNode.render cat node ctx false =
      (match BlockTranslateNode.render nullCatalog node ctx true with
       | .error er => .error er
       | .ok (r, c4) => .ok (applyAsvar node r c4)) := by
  rw [render_unfold, h]
  simp [hc]

/-- A successful nested render can only come from a successful
substitution, and its result is the asvar dispatch of that value. -/
theorem render_true_ok_inv (cat : Catalog) (node : BlockTranslateNode) (ctx : Context)
    (p : String × Context) (h : BlockTranslateNode.render cat node ctx true = .ok p) :
    ∃ r, btFmt cat node ctx = .ok r ∧ p = applyAsvar node r ctx := by
  rw [render_unfold] at h
  cases hf : btFmt cat node ctx with
  | ok r =>
    rw [hf] at h
    refine ⟨r, rfl, ?_⟩
    injection h with h2
    exact h2.symm
  | error e =>
    rw [hf] at h
    cases hc : e.caught <;> simp [hc] at h

/-! Options-dict lemmas: recorded options are found and are stable
under the loop's later appends. -/

theorem findOpt_of_optSeen_false (l : List (String × OptVal)) (o : String)
    (h : optSeen l o = false) : findOpt l o = none := by
  unfold optSeen at h
  unfold findOpt
  rw [List.any_eq_false] at h
  rw [List.find?_eq_none.mpr h]
  rfl

theorem findOpt_append_self (l : List (String × OptVal)) (o : String) (w : OptVal)
    (h : findOpt l o = none) : findOpt (l ++ [(o, w)]) o = some w := by
  unfold findOpt at *
  rw [List.find?_append]
  have hl : l.find? (fun p => p.1 == o) = none := by
    cases hc : l.find? (fun p => p.1 == o) with
    | none => rfl
    | some p => rw [hc] at h; simp at h
  rw [hl]
  simp [List.find?]

theorem findOpt_append_keep (l : List (String × OptVal)) (name : String) (w : OptVal)
    (o : String) (v : OptVal) (h : findOpt l o = some v) :
    findOpt (l ++ [(name, w)]) o = some v := by
  unfold findOpt at *
  rw [List.find?_append]
  obtain ⟨p, hp, hv⟩ := Option.map_eq_some'.mp h
  rw [hp]
  simp [hv]

theorem parseOpts_preserves (tag : String) (tk : TokenKwargs) (o : String) :
    ∀ bits options asvar, ∀ res : List (String × OptVal) × Option String, ∀ v : OptVal,
      parseOpts tag tk bits options asvar = .ok res → findOpt options o = some v →
      findOpt res.1 o = some v := by
  intro bits options asvar
  induction bits, options, asvar using parseOpts.induct tag tk with
  | case1 options asvar =>
    intro res v h hf
    rw [parseOpts.eq_def] at h
    cases h
    exact hf
  | case2 option rest options asvar hseen =>
    intro res v h hf
    rw [parseOpts.eq_def] at h
    simp [hseen] at h
  | case3 rest options asvar value hemp hseen =>
    intro res v h hf
    rw [parseOpts.eq_def] at h
    simp [hseen, hemp] at h
  | case4 rest options asvar value hemp hseen ih =>
    intro res v h hf
    rw [parseOpts.eq_def] at h
    simp only [Bool.not_eq_true] at hseen
    simp only [hseen, Bool.false_eq_true, if_false, reduceIte, hemp] at h
    exact ih res v h (findOpt_append_keep _ _ _ _ _ hf)
  | case5 rest options asvar value hlen hseen hne =>
    intro res v h hf
    rw [parseOpts.eq_def] at h
    simp [hseen, hlen] at h
  | case6 rest options asvar value hlen hseen hne ih =>
    intro res v h hf
    rw [parseOpts.eq_def] at h
    simp only [Bool.not_eq_true] at hseen
    simp only [hseen, Bool.false_eq_true, if_false, reduceIte, String.reduceEq] at h
    rw [if_neg hlen] at h
    exact ih res v h (findOpt_append_keep _ _ _ _ _ hf)
  | case7 options asvar hseen hne1 hne2 =>
    intro res v h hf
    rw [parseOpts.eq_def] at h
    simp [hseen] at h
  | case8 options asvar b rest hseen hne1 hne2 ih =>
    intro res v h hf
    rw [parseOpts.eq_def] at h
    simp only [Bool.not_eq_true] at hseen
    simp only [hseen, Bool.false_eq_true, if_false, reduceIte, String.reduceEq] at h
    exact ih res v h (findOpt_append_keep _ _ _ _ _ hf)
  | case9 rest options asvar hseen hne1 hne2 hne3 ih =>
    intro res v h hf
    rw [parseOpts.eq_def] at h
    simp only [Bool.not_eq_true] at hseen
    simp only [hseen, Bool.false_eq_true, if_false, reduceIte, String.reduceEq] at h
    exact ih res v h (findOpt_append_keep _ _ _ _ _ hf)
  | case10 options asvar hseen hne1 hne2 hne3 hne4 =>
    intro res v h hf
    rw [parseOpts.eq_def] at h
    simp [hseen] at h
  | case11 options asvar b rest hseen hne1 hne2 hne3 hne4 ih =>
    intro res v h hf
    rw [parseOpts.eq_def] at h
    simp only [Bool.not_eq_true] at hseen
    simp only [hseen, Bool.false_eq_true, if_false, reduceIte, String.reduceEq] at h
    exact ih res v h (findOpt_append_keep _ _ _ _ _ hf)
  | case12 option rest options asvar hseen hne1 hne2 hne3 hne4 hne5 =>
    intro res v h hf
    rw [parseOpts.eq_def] at h
    simp [hseen, hne1, hne2, hne3, hne4, hne5] at h

/-! The specification claims. -/

/-- Claim C1: for every blocktranslate render in which substituting the
catalog-returned string with the resolved placeholder data fails
(missing or mismatched placeholder, i.e. a caught KeyError/ValueError),
the render is retried exactly once with translation overridden to the
untranslated catalog; if the retry's substitution also fails, render
raises the formatting error naming the tag, the catalog result and the
substitution data (those of the retry — the first failure is not
reported, and there is no third attempt). -/
theorem claim_c1 (cat : Catalog) (node : BlockTranslateNode) (ctx : Context)
    (e : FErr) (hfail : btFmt cat node ctx = .error e) (hc : e.caught = true) :
    (BlockTranslateNode.render cat node ctx false =
      (match BlockTranslateNode.render nullCatalog node ctx true with
       | .error er => .error er
       | .ok (r, c4) => .ok (applyAsvar node r c4))) ∧
    (∀ e2 : FErr, btFmt nullCatalog node ctx = .error e2 → e2.caught = true →
      BlockTranslateNode.render cat node ctx false =
        .error (.cannotFormat node.tag_name (btPrepare nullCatalog node ctx).resultStr
          (btDataOf (btPrepare nullCatalog node ctx)))) := by
  constructor
  · exact render_false_fail cat node ctx e hfail hc
  · intro e2 h2 hc2
    rw [render_false_fail cat node ctx e hfail hc]
    rw [render_true_fail nullCatalog node ctx e2 h2 hc2]

/-- Witness for C1: a catalog returning a string with a missing
placeholder triggers the retry (first conjunct, on a well-formed body);
a body whose placeholder is malformed even untranslated makes the retry
fail too and raises the formatting error carrying the retry's data
(second conjunct). -/
theorem claim_c1_witness :
    (BlockTranslateNode.render wCatBad wNode wCtx false =
      (match BlockTranslateNode.render nullCatalog wNode wCtx true with
       | .error er => .error er
       | .ok (r, c4) => .ok (applyAsvar wNode r c4))) ∧
    (BlockTranslateNode.render wCatBad wNodeBadVar wCtx false =
      .error (.cannotFormat "blocktranslate" (btPrepare nullCatalog wNodeBadVar wCtx).resultStr
        (btDataOf (btPrepare nullCatalog wNodeBadVar wCtx)))) :=
  ⟨(claim_c1 wCatBad wNode wCtx (.keyErr "missing") (by rfl) (by rfl)).1,
    (claim_c1 wCatBad wNodeBadVar wCtx (.keyErr "missing") (by rfl) (by rfl)).2
      .valueErr (by rfl) (by rfl)⟩

/-- Claim C9: a LanguageNode render restores the previously active
translation language on every exit path — the resulting state's active
language equals the caller's whether the nested nodelist returns output
or an error — and the override is scoped to the nested render: the
nodelist runs with the resolved language active, and its outcome
(including any error) is passed through unchanged. -/
theorem claim_c9 {ε : Type} (node : LanguageNode) (ctx : Context)
    (nodelist : TransState → Context → TransState × Except ε (String × Context))
    (st : TransState) :
    (LanguageNode.render node ctx nodelist st).1.active = st.active ∧
    (LanguageNode.render node ctx nodelist st).2 =
      (nodelist { active := some ((node.language.resolve ctx).asString) } ctx).2 ∧
    (∀ e, (nodelist { active := some ((node.language.resolve ctx).asString) } ctx).2 =
        .error e →
      (LanguageNode.render node ctx nodelist st).2 = .error e) := by
  refine ⟨rfl, rfl, ?_⟩
  intro e he
  exact he

/-- Witness for C9: a nodelist that fails still leaves the caller's
active language restored, and the error is propagated. -/
theorem claim_c9_witness :
    (LanguageNode.render (ε := Unit) ⟨.lit "de"⟩ wCtx
        (fun _ _ => (⟨some "de"⟩, .error ())) ⟨some "en"⟩).1.active = some "en" ∧
    (LanguageNode.render (ε := Unit) ⟨.lit "de"⟩ wCtx
        (fun _ _ => (⟨some "de"⟩, .error ())) ⟨some "en"⟩).2 = .error () :=
  ⟨(claim_c9 ⟨.lit "de"⟩ wCtx (fun _ _ => (⟨some "de"⟩, .error ())) ⟨some "en"⟩).1,
    (claim_c9 ⟨.lit "de"⟩ wCtx (fun _ _ => (⟨some "de"⟩, .error ())) ⟨some "en"⟩).2.2
      () rfl⟩

/-- Counterexample to claim C5: the catalog lookup variant is not
selected solely from the presence of a message context and a count.
Here a count is present (countervar and counter both set) and no
context is, yet render uses gettext, not ngettext, because the plural
token list is empty. -/
theorem claim_c5_counterexample :
    BlockTranslateNode.render wCatMark wNodeEmptyPlural wCtxN false =
      .ok (wCatMark.gettext "one item", wCtxN) ∧
    wNodeEmptyPlural.countervar = some "c" ∧
    wNodeEmptyPlural.counter = some (.var "n") ∧
    wNodeEmptyPlural.message_context = none ∧
    wCatMark.gettext "one item" ≠ wCatMark.ngettext "one item" "" (Value.n 5) := by
  refine ⟨?_, rfl, rfl, rfl, by decide⟩
  rw [render_fmt_ok wCatMark wNodeEmptyPlural wCtxN false "G:one item" (by rfl)]
  rfl

/-- Claim C5 (amended): the catalog lookup variant is selected from the
presence of a message context and a count together with non-emptiness
of the plural token list: npgettext/ngettext (by context presence) when
the plural list is nonempty and a truthy countervar and a counter are
set, pgettext/gettext otherwise; a successful substitution of the
selected result renders inline on the restored context. -/
theorem claim_c5_amended (cat : Catalog) (node : BlockTranslateNode) (ctx : Context) :
    (∀ p ps cv ce, node.plural = p :: ps → node.countervar = some cv →
      cv.isEmpty = false → node.counter = some ce →
      (btPrepare cat node ctx).resultStr =
        (match resolveMsgContext node ctx with
         | some c => cat.npgettext c (render_token_list node.trimmed node.singular).1
             (render_token_list node.trimmed node.plural).1
             (ce.resolve (ctx.push (node.extra_context.map (fun q => (q.1, q.2.resolve ctx)))))
         | none => cat.ngettext (render_token_list node.trimmed node.singular).1
             (render_token_list node.trimmed node.plural).1
             (ce.resolve (ctx.push (node.extra_context.map (fun q => (q.1, q.2.resolve ctx))))))) ∧
    ((node.plural = [] ∨ node.countervar = none ∨ node.countervar = some "" ∨
        node.counter = none) →
      (btPrepare cat node ctx).resultStr =
        (match resolveMsgContext node ctx with
         | some c => cat.pgettext c (render_token_list node.trimmed node.singular).1
         | none => cat.gettext (render_token_list node.trimmed node.singular).1)) ∧
    (∀ r, btFmt cat node ctx = .ok r →
      BlockTranslateNode.render cat node ctx false = .ok (applyAsvar node r ctx)) := by
  refine ⟨?_, ?_, fun r h => render_fmt_ok cat node ctx false r h⟩
  · intro p ps cv ce hp hcv hemp hce
    unfold btPrepare
    rw [hp, hcv, hce]
    simp only [hemp, Bool.false_eq_true, if_false]
  · intro hdis
    unfold btPrepare
    rcases hp : node.plural with _ | ⟨p, ps⟩ <;>
      rcases hcv : node.countervar with _ | cv <;>
        rcases hce : node.counter with _ | ce <;>
          try (cases resolveMsgContext node ctx <;> rfl)
    rcases hdis with h | h | h | h
    · rw [hp] at h
      cases h
    · rw [hcv] at h
      cases h
    · rw [hcv] at h
      injection h with h2
      subst h2
      simp only [String.isEmpty, if_pos rfl]
      cases resolveMsgContext node ctx <;> rfl
    · rw [hce] at h
      cases h

/-- Witness for the amended C5: with a nonempty plural body the marker
catalog's ngettext is used; with an empty plural body its gettext is. -/
theorem claim_c5_amended_witness :
    (btPrepare wCatMark wNodeCount wCtxN).resultStr = "N:one item" ∧
    (btPrepare wCatMark wNodeEmptyPlural wCtxN).resultStr = "G:one item" := by
  constructor
  · rw [(claim_c5_amended wCatMark wNodeCount wCtxN).1 ⟨.var, "c"⟩ [⟨.text, " items"⟩]
      "c" (.var "n") rfl rfl rfl rfl]
    rfl
  · rw [(claim_c5_amended wCatMark wNodeEmptyPlural wCtxN).2.1 (Or.inl rfl)]
    rfl

/-- Counterexample to claim C6: on the untranslated-retry path with
asvar set, the formatted result is not what ends up bound under the
asvar name.  Here the retry formats successfully to "Hello folks", but
the outer call overwrites the binding with the empty string the
recursive call returned, so x ends bound to "". -/
theorem claim_c6_counterexample :
    BlockTranslateNode.render wCatBad wNodeAsvar wCtx false =
      .ok ("", wCtx.set "x" (.s "")) ∧
    btFmt nullCatalog wNodeAsvar wCtx = .ok "Hello folks" ∧
    (wCtx.set "x" (.s "")).lookup "x" = some (.s "") ∧
    ("Hello folks" : String) ≠ "" := by
  refine ⟨?_, rfl, rfl, by decide⟩
  rw [render_false_fail wCatBad wNodeAsvar wCtx (.keyErr "missing") (by rfl) rfl]
  rw [render_fmt_ok nullCatalog wNodeAsvar wCtx true "Hello folks" (by rfl)]
  rfl

/-- Claim C6 (amended): with asvar set the tag always emits the empty
string; on a render whose first substitution succeeds, the formatted
result is bound under asvar; on the one-time retry path, the recursive
call's binding is overwritten by the empty string the recursive call
emitted, so asvar ends bound to the empty string.  Without asvar the
formatted result is emitted inline, also on the retry path. -/
theorem claim_c6_amended (cat : Catalog) (node : BlockTranslateNode) (ctx : Context) :
    (∀ a, node.asvar = some a →
      (∀ r, btFmt cat node ctx = .ok r →
        BlockTranslateNode.render cat node ctx false = .ok ("", ctx.set a (.s r))) ∧
      (∀ e r, btFmt cat node ctx = .error e → e.caught = true →
        btFmt nullCatalog node ctx = .ok r →
        BlockTranslateNode.render cat node ctx false = .ok ("", ctx.set a (.s "")))) ∧
    (node.asvar = none →
      (∀ r, btFmt cat node ctx = .ok r →
        BlockTranslateNode.render cat node ctx false = .ok (r, ctx)) ∧
      (∀ e r, btFmt cat node ctx = .error e → e.caught = true →
        btFmt nullCatalog node ctx = .ok r →
        BlockTranslateNode.render cat node ctx false = .ok (r, ctx))) := by
  constructor
  · intro a ha
    constructor
    · intro r h
      rw [render_fmt_ok cat node ctx false r h]
      simp [applyAsvar, ha]
    · intro e r h hc hnull
      rw [render_false_fail cat node ctx e h hc]
      rw [render_fmt_ok nullCatalog node ctx true r hnull]
      simp [applyAsvar, ha, Context.set_set]
  · intro ha
    constructor
    · intro r h
      rw [render_fmt_ok cat node ctx false r h]
      simp [applyAsvar, ha]
    · intro e r h hc hnull
      rw [render_false_fail cat node ctx e h hc]
      rw [render_fmt_ok nullCatalog node ctx true r hnull]
      simp [applyAsvar, ha]

/-- Witness for the amended C6: the non-retry render binds the
formatted result; the retry render binds the empty string; without
asvar the result is emitted inline. -/
theorem claim_c6_amended_witness :
    BlockTranslateNode.render nullCatalog wNodeAsvar wCtx false =
      .ok ("", wCtx.set "x" (.s "Hello folks")) ∧
    BlockTranslateNode.render wCatBad wNodeAsvar wCtx false =
      .ok ("", wCtx.set "x" (.s "")) ∧
    BlockTranslateNode.render nullCatalog wNode wCtx false = .ok ("Hello folks", wCtx) :=
  ⟨((claim_c6_amended nullCatalog wNodeAsvar wCtx).1 "x" rfl).1 "Hello folks" (by rfl),
    ((claim_c6_amended wCatBad wNodeAsvar wCtx).1 "x" rfl).2 (.keyErr "missing")
      "Hello folks" (by rfl) rfl (by rfl),
    ((claim_c6_amended nullCatalog wNode wCtx).2 rfl).1 "Hello folks" (by rfl)⟩

/-- Claim C7: protected percent signs round-trip.  TranslateNode.render
emits the looked-up value with every doubled percent halved;
%-formatting a percent-doubled string restores the original (the
mechanism by which blocktranslate literal text survives substitution);
a literal translate of an untranslated string renders with doubles
halved; a text-only blocktranslate block renders back to its own text;
and the doubled percent sign in 100%% renders as the single percent
sign in 100%. -/
theorem claim_c7 :
    (∀ cat e noop mc ctx,
      TranslateNode.render cat ⟨e, noop, none, mc⟩ ctx =
        (halvePctStr (TranslateNode.lookupValue cat ⟨e, noop, none, mc⟩ ctx), ctx)) ∧
    (∀ s data, pyFormat (doublePctStr s) data = .ok s) ∧
    (∀ s ctx, TranslateNode.render nullCatalog ⟨.lit s, false, none, none⟩ ctx =
      (halvePctStr s, ctx)) ∧
    (∀ s ctx, BlockTranslateNode.render nullCatalog
        ⟨[], [⟨.text, s⟩], [], none, none, none, false, none, "blocktranslate"⟩ ctx false =
      .ok (s, ctx)) ∧
    halvePctStr "100%%" = "100%" := by
  refine ⟨fun cat e noop mc ctx => rfl, pyFormat_doublePct, fun s ctx => rfl, ?_, rfl⟩
  intro s ctx
  have hfmt : btFmt nullCatalog
      ⟨[], [⟨.text, s⟩], [], none, none, none, false, none, "blocktranslate"⟩ ctx =
      .ok s := by
    have hshape : btFmt nullCatalog
        ⟨[], [⟨.text, s⟩], [], none, none, none, false, none, "blocktranslate"⟩ ctx =
        pyFormat (String.mk (escapePct s.data ++ [])) [] := rfl
    rw [hshape, List.append_nil]
    exact pyFormat_doublePct s []
  rw [render_fmt_ok nullCatalog _ ctx false s hfmt]
  rfl

/-- Claim C8: a successful blocktranslate render pushes exactly one
temporary scope (the working context is one deeper and popping it
restores the incoming context exactly) and pops it before output; the
final context has unchanged stack depth and unchanged bindings for
every key other than the asvar name, and is wholly unchanged when
asvar is unset.  The directive value itself is immutable here by
construction. -/
theorem claim_c8 (cat : Catalog) (node : BlockTranslateNode) (ctx : Context)
    (nested : Bool) (out : String) (ctx' : Context)
    (h : BlockTranslateNode.render cat node ctx nested = .ok (out, ctx')) :
    ctx'.dicts.length = ctx.dicts.length ∧
    ctx'.string_if_invalid = ctx.string_if_invalid ∧
    (node.asvar = none → ctx' = ctx) ∧
    (∀ a, node.asvar = some a → ∃ v, ctx' = ctx.set a v) ∧
    (∀ k, (∀ a, node.asvar = some a → k ≠ a) → ctx'.lookup k = ctx.lookup k) ∧
    (btPrepare cat node ctx).ctx2.dicts.length = ctx.dicts.length + 1 ∧
    (btPrepare cat node ctx).ctx2.pop = ctx := by
  have hsh : (node.asvar = none ∧ ctx' = ctx) ∨
      (∃ a v, node.asvar = some a ∧ ctx' = ctx.set a v) := by
    rw [render_unfold] at h
    cases hb : btFmt cat node ctx with
    | ok r =>
      rw [hb] at h
      cases ha : node.asvar with
      | none =>
        left
        simp [applyAsvar, ha] at h
        exact ⟨rfl, h.2.symm⟩
      | some a =>
        right
        simp [applyAsvar, ha] at h
        exact ⟨a, .s r, rfl, h.2.symm⟩
    | error e =>
      rw [hb] at h
      cases hcg : e.caught with
      | false => simp [hcg] at h
      | true =>
        simp only [hcg, if_true] at h
        cases hnested : nested with
        | true =>
          rw [hnested] at h
          simp at h
        | false =>
          rw [hnested] at h
          simp only [Bool.false_eq_true, if_false] at h
          cases hr : BlockTranslateNode.render nullCatalog node ctx true with
          | error er =>
            rw [hr] at h
            simp at h
          | ok p =>
            obtain ⟨r3, c4⟩ := p
            rw [hr] at h
            obtain ⟨r2, hfmt2, hp2⟩ := render_true_ok_inv nullCatalog node ctx (r3, c4) hr
            cases ha : node.asvar with
            | none =>
              left
              simp [applyAsvar, ha] at hp2 h
              exact ⟨rfl, by rw [← h.2, hp2.2]⟩
            | some a =>
              right
              simp [applyAsvar, ha] at hp2 h
              refine ⟨a, .s r3, rfl, ?_⟩
              rw [← h.2, hp2.2, Context.set_set]
  obtain ⟨han, heq⟩ | ⟨a, v, ha, heq⟩ := hsh
  · refine ⟨?_, ?_, fun _ => heq, ?_, ?_, btPrepare_ctx2_len cat node ctx,
      btPrepare_ctx2_pop cat node ctx⟩
    · rw [heq]
    · rw [heq]
    · intro a2 ha2
      rw [han] at ha2
      cases ha2
    · intro k _
      rw [heq]
  · subst heq
    refine ⟨Context.length_set ctx a v, Context.siv_set ctx a v, ?_, ?_, ?_,
      btPrepare_ctx2_len cat node ctx, btPrepare_ctx2_pop cat node ctx⟩
    · intro hnone
      rw [ha] at hnone
      cases hnone
    · intro a2 ha2
      rw [ha] at ha2
      injection ha2 with h3
      subst h3
      exact ⟨v, rfl⟩
    · intro k hk
      exact Context.lookup_set_ne ctx a k v (hk a ha)

/-- Witness for C8 at a concrete asvar render: one binding changes, the
depth and other bindings are preserved. -/
theorem claim_c8_witness :
    BlockTranslateNode.render nullCatalog wNodeAsvar wCtx false =
      .ok ("", wCtx.set "x" (.s "Hello folks")) ∧
    (wCtx.set "x" (.s "Hello folks")).dicts.length = wCtx.dicts.length ∧
    (wCtx.set "x" (.s "Hello folks")).lookup "who" = wCtx.lookup "who" := by
  have hren : BlockTranslateNode.render nullCatalog wNodeAsvar wCtx false =
      .ok ("", wCtx.set "x" (.s "Hello folks")) := by
    rw [render_fmt_ok nullCatalog wNodeAsvar wCtx false "Hello folks" (by rfl)]
    rfl
  have h8 := claim_c8 nullCatalog wNodeAsvar wCtx false "" (wCtx.set "x" (.s "Hello folks")) hren
  refine ⟨hren, h8.1, h8.2.2.2.2.1 "who" ?_⟩
  intro a ha
  injection ha with h2
  subst h2
  decide

/-- Claim C10: a directive with a count binding but an empty plural
token list renders exactly as the non-plural directive does — same
output and final context for every catalog, context and nesting — its
catalog lookup is pgettext/gettext (never ngettext/npgettext), and its
working context never receives a counter-variable binding (it is
exactly the pushed with-scope). -/
theorem claim_c10 (cat : Catalog) (node : BlockTranslateNode) (ctx : Context)
    (nested : Bool) (hp : node.plural = []) :
    BlockTranslateNode.render cat node ctx nested =
      BlockTranslateNode.render cat
        { node with countervar := none, counter := none } ctx nested ∧
    (btPrepare cat node ctx).resultStr =
      (match resolveMsgContext node ctx with
       | some c => cat.pgettext c (render_token_list node.trimmed node.singular).1
       | none => cat.gettext (render_token_list node.trimmed node.singular).1) ∧
    (btPrepare cat node ctx).ctx2 =
      ctx.push (node.extra_context.map (fun q => (q.1, q.2.resolve ctx))) := by
  have hbt : ∀ cat2 : Catalog, btPrepare cat2 node ctx =
      btPrepare cat2 { node with countervar := none, counter := none } ctx := by
    intro cat2
    unfold btPrepare
    rw [hp]
    rfl
  have hfmt : ∀ cat2 : Catalog, btFmt cat2 node ctx =
      btFmt cat2 { node with countervar := none, counter := none } ctx := by
    intro cat2
    unfold btFmt
    rw [hbt cat2]
  have htrue : ∀ cat2 : Catalog, BlockTranslateNode.render cat2 node ctx true =
      BlockTranslateNode.render cat2 { node with countervar := none, counter := none }
        ctx true := by
    intro cat2
    rw [render_true_eq, render_true_eq, ← hfmt cat2, ← hbt cat2]
    cases hb : btFmt cat2 node ctx with
    | ok r => rfl
    | error e => cases hcg : e.caught <;> simp [hcg]
  have hmain : BlockTranslateNode.render cat node ctx nested =
      BlockTranslateNode.render cat { node with countervar := none, counter := none }
        ctx nested := by
    cases nested with
    | true => exact htrue cat
    | false =>
      rw [render_false_eq, render_false_eq, ← hfmt cat, ← htrue nullCatalog]
      cases hb : btFmt cat node ctx with
      | ok r => rfl
      | error e =>
        cases hcg : e.caught with
        | false => simp [hcg]
        | true =>
          simp only [hcg, if_true]
          cases hr : BlockTranslateNode.render nullCatalog node ctx true with
          | error er => rfl
          | ok p =>
            obtain ⟨r3, c4⟩ := p
            rfl
  refine ⟨hmain, ?_, ?_⟩
  · unfold btPrepare
    rw [hp]
  · unfold btPrepare
    rw [hp]

/-- Witness for C10: the concrete empty-plural count directive renders
identically to its non-plural counterpart, and its lookup is the
marker catalog's gettext. -/
theorem claim_c10_witness :
    BlockTranslateNode.render wCatMark wNodeEmptyPlural wCtxN false =
      BlockTranslateNode.render wCatMark
        { wNodeEmptyPlural with countervar := none, counter := none } wCtxN false ∧
    (btPrepare wCatMark wNodeEmptyPlural wCtxN).resultStr = "G:one item" := by
  have h10 := claim_c10 wCatMark wNodeEmptyPlural wCtxN false rfl
  refine ⟨h10.1, ?_⟩
  rw [h10.2.1]
  rfl

/-- Claim C2: with a count binding, the token ending the singular body
must be the plural separator, otherwise parsing fails with the
no-other-tags error; after a plural body, the ending token must be the
matching end tag, otherwise parsing fails with the error naming the
offending tag; and without a count binding (so that no plural section
is permitted), the token ending the body must be the end tag — any
other tag there, including a plural separator, fails with the error
naming it. -/
theorem claim_c2 (tag : String) (tk : TokenKwargs) (bits : List String)
    (tagTok : Tok) (tokens : List Tok) (options : List (String × OptVal))
    (asvar : Option String) (sing : List Tok) (t1 : Tok) (rest1 : List Tok)
    (hopts : parseOpts tag tk bits [] none = .ok (options, asvar))
    (hsr : collectBody tagTok tokens = (sing, t1, rest1)) :
    ((truthyOptStr (countBinding options).1 && (countBinding options).2.isSome) = true →
      pyStrip t1.contents ≠ "plural" →
      do_block_translate tag tk bits tagTok tokens = .error (.noOtherTags tag)) ∧
    (∀ plur t2 rest2,
      (truthyOptStr (countBinding options).1 && (countBinding options).2.isSome) = true →
      pyStrip t1.contents = "plural" →
      collectBody t1 rest1 = (plur, t2, rest2) →
      (pyStrip t2.contents ≠ "end" ++ tag →
        do_block_translate tag tk bits tagTok tokens =
          .error (.noOtherTagsSeen tag t2.contents)) ∧
      (pyStrip t2.contents = "end" ++ tag →
        do_block_translate tag tk bits tagTok tokens = .ok
          ⟨withBindings options, sing, plur, (countBinding options).1,
            (countBinding options).2, contextBinding options, trimmedFlag options,
            asvar, tag⟩)) ∧
    ((truthyOptStr (countBinding options).1 && (countBinding options).2.isSome) = false →
      (pyStrip t1.contents ≠ "end" ++ tag →
        do_block_translate tag tk bits tagTok tokens =
          .error (.noOtherTagsSeen tag t1.contents)) ∧
      (pyStrip t1.contents = "end" ++ tag →
        do_block_translate tag tk bits tagTok tokens = .ok
          ⟨withBindings options, sing, [], (countBinding options).1,
            (countBinding options).2, contextBinding options, trimmedFlag options,
            asvar, tag⟩)) := by
  unfold do_block_translate
  rw [hopts]
  simp only [hsr]
  refine ⟨?_, ?_, ?_⟩
  · intro hguard hne
    simp [hguard, hne]
  · intro plur t2 rest2 hguard hpl hpr
    simp only [hguard, hpl, hpr]
    constructor
    · intro hne
      simp [hne]
    · intro hend
      simp [hend]
  · intro hguard
    simp only [hguard]
    constructor
    · intro hne
      simp [hne]
    · intro hend
      simp [hend]

/-- Witness for C2 at concrete blocks: a count block whose body ends at
the end tag instead of plural fails; a count block with a plural
section parses; a plural separator without count fails naming it. -/
theorem claim_c2_witness :
    do_block_translate "blocktranslate" simpleTokKw ["count", "n=5"] wTagTok
      [⟨.text, "one"⟩, wEndTok] = .error (.noOtherTags "blocktranslate") ∧
    do_block_translate "blocktranslate" simpleTokKw ["count", "n=5"] wTagTok
      [⟨.text, "one"⟩, wPluralTok, ⟨.var, "c"⟩, wEndTok] = .ok
      ⟨[], [⟨.text, "one"⟩], [⟨.var, "c"⟩], some "n", some (.litn 5), none, false, none,
        "blocktranslate"⟩ ∧
    do_block_translate "blocktranslate" simpleTokKw [] wTagTok
      [⟨.text, "hi"⟩, wPluralTok, wEndTok] =
      .error (.noOtherTagsSeen "blocktranslate" "plural") := by
  have hcount : parseOpts "blocktranslate" simpleTokKw ["count", "n=5"] [] none =
      .ok ([("count", .kw [("n", .litn 5)])], none) := by
    have h1 : parseOpts "blocktranslate" simpleTokKw ["count", "n=5"] [] none =
        parseOpts "blocktranslate" simpleTokKw [] [("count", .kw [("n", .litn 5)])] none := by
      rw [parseOpts.eq_def]
      rfl
    have h2 : parseOpts "blocktranslate" simpleTokKw []
        [("count", .kw [("n", .litn 5)])] none =
        .ok ([("count", .kw [("n", .litn 5)])], none) := by
      rw [parseOpts.eq_def]
    exact h1.trans h2
  have hempty : parseOpts "blocktranslate" simpleTokKw [] [] none = .ok ([], none) := by
    rw [parseOpts.eq_def]
  refine ⟨?_, ?_, ?_⟩
  · exact (claim_c2 "blocktranslate" simpleTokKw ["count", "n=5"] wTagTok
      [⟨.text, "one"⟩, wEndTok] [("count", .kw [("n", .litn 5)])] none
      [⟨.text, "one"⟩] wEndTok [] hcount rfl).1 rfl (by decide)
  · exact (((claim_c2 "blocktranslate" simpleTokKw ["count", "n=5"] wTagTok
      [⟨.text, "one"⟩, wPluralTok, ⟨.var, "c"⟩, wEndTok] [("count", .kw [("n", .litn 5)])]
      none [⟨.text, "one"⟩] wPluralTok [⟨.var, "c"⟩, wEndTok] hcount rfl).2.1
      [⟨.var, "c"⟩] wEndTok [] rfl (by decide) rfl).2 (by decide))
  · exact ((claim_c2 "blocktranslate" simpleTokKw [] wTagTok
      [⟨.text, "hi"⟩, wPluralTok, wEndTok] [] none
      [⟨.text, "hi"⟩] wPluralTok [wEndTok] hempty rfl).2.2 rfl).1 (by decide)

/-- Claim C3: the count option must be followed by exactly one keyword
binding.  When the framework's token_kwargs yields a number of bindings
other than one, the option loop fails with the count error; and
whenever the whole directive parses successfully from a count option,
token_kwargs yielded exactly one binding there, whose name and
expression become the node's counter variable and counter expression. -/
theorem claim_c3 :
    (∀ tag (tk : TokenKwargs) rest options asvar, optSeen options "count" = false →
      (tk.run rest).1.length ≠ 1 →
      parseOpts tag tk ("count" :: rest) options asvar =
        .error (.countNeedsOne tag)) ∧
    (∀ tag (tk : TokenKwargs) rest tagTok tokens node,
      do_block_translate tag tk ("count" :: rest) tagTok tokens = .ok node →
      ∃ k e, (tk.run rest).1 = [(k, e)] ∧ node.countervar = some k ∧
        node.counter = some e) := by
  constructor
  · intro tag tk rest options asvar hseen hlen
    rw [parseOpts.eq_def]
    simp [hseen, hlen]
  · intro tag tk rest tagTok tokens node h
    unfold do_block_translate at h
    cases hopt : parseOpts tag tk ("count" :: rest) [] none with
    | error e =>
      rw [hopt] at h
      simp at h
    | ok res =>
      obtain ⟨options, asvar⟩ := res
      rw [hopt] at h
      by_cases hlen : (tk.run rest).1.length = 1
      · obtain ⟨⟨k, e⟩, htl⟩ : ∃ p, (tk.run rest).1 = [p] :=
          List.length_eq_one.mp hlen
        refine ⟨k, e, htl, ?_⟩
        have hstep : parseOpts tag tk ("count" :: rest) [] none =
            parseOpts tag tk (tk.run rest).2 [("count", .kw (tk.run rest).1)] none := by
          rw [parseOpts.eq_def]
          simp [optSeen, hlen]
        rw [hstep, htl] at hopt
        have hfind : findOpt options "count" = some (.kw [(k, e)]) :=
          parseOpts_preserves tag tk "count" (tk.run rest).2
            [("count", .kw [(k, e)])] none (options, asvar) (.kw [(k, e)]) hopt rfl
        have hcv : countBinding options = (some k, some e) := by
          unfold countBinding
          rw [hfind]
        have hnode : node.countervar = (countBinding options).1 ∧
            node.counter = (countBinding options).2 := by
          simp only [] at h
          split at h
          · split at h
            · simp at h
            · split at h
              · simp at h
              · injection h with h2
                rw [← h2]
                exact ⟨rfl, rfl⟩
          · split at h
            · simp at h
            · injection h with h2
              rw [← h2]
              exact ⟨rfl, rfl⟩
        rw [hcv] at hnode
        exact ⟨hnode.1, hnode.2⟩
      · have hfail : parseOpts tag tk ("count" :: rest) [] none =
            .error (.countNeedsOne tag) := by
          rw [parseOpts.eq_def]
          simp [optSeen, hlen]
        rw [hfail] at hopt
        cases hopt

/-- Witness for C3: two count bindings fail with the count error; a
single binding parses and becomes the counter. -/
theorem claim_c3_witness :
    parseOpts "blocktranslate" simpleTokKw ["count", "n=5", "m=6"] [] none =
      .error (.countNeedsOne "blocktranslate") ∧
    (∃ k e, (simpleTokKw.run ["n=5"]).1 = [(k, e)] ∧
      (⟨[], [⟨.text, "one"⟩], [⟨.var, "c"⟩], some "n", some (.litn 5), none, false, none,
        "blocktranslate"⟩ : BlockTranslateNode).countervar = some k ∧
      (⟨[], [⟨.text, "one"⟩], [⟨.var, "c"⟩], some "n", some (.litn 5), none, false, none,
        "blocktranslate"⟩ : BlockTranslateNode).counter = some e) := by
  constructor
  · exact claim_c3.1 "blocktranslate" simpleTokKw ["n=5", "m=6"] [] none rfl (by decide)
  · refine claim_c3.2 "blocktranslate" simpleTokKw ["n=5"] wTagTok
      [⟨.text, "one"⟩, wPluralTok, ⟨.var, "c"⟩, wEndTok] _ ?_
    have h1 : parseOpts "blocktranslate" simpleTokKw ["count", "n=5"] [] none =
        parseOpts "blocktranslate" simpleTokKw [] [("count", .kw [("n", .litn 5)])] none := by
      rw [parseOpts.eq_def]
      rfl
    have h2 : parseOpts "blocktranslate" simpleTokKw []
        [("count", .kw [("n", .litn 5)])] none =
        .ok ([("count", .kw [("n", .litn 5)])], none) := by
      rw [parseOpts.eq_def]
    unfold do_block_translate
    rw [h1.trans h2]
    rfl

/-- Counterexample to claim C4: supplying the with option followed by
zero keyword bindings does not parse to a node with an empty extra
scope — it fails with the with-needs-at-least-one-argument error. -/
theorem claim_c4_counterexample :
    do_block_translate "blocktranslate" simpleTokKw ["with"] wTagTok [wEndTok] =
      .error (.withNeedsArg "blocktranslate") := by
  have hp : parseOpts "blocktranslate" simpleTokKw ["with"] [] none =
      .error (.withNeedsArg "blocktranslate") := by
    rw [parseOpts.eq_def]
    rfl
  unfold do_block_translate
  rw [hp]

/-- Claim C4 (amended): the with option requires at least one keyword
binding: zero bindings fail with the with error, and whenever the whole
directive parses successfully from a with option, token_kwargs yielded
a nonempty binding list there, which becomes the node's extra context
scope. -/
theorem claim_c4_amended :
    (∀ tag (tk : TokenKwargs) rest options asvar, optSeen options "with" = false →
      (tk.run rest).1 = [] →
      parseOpts tag tk ("with" :: rest) options asvar = .error (.withNeedsArg tag)) ∧
    (∀ tag (tk : TokenKwargs) rest tagTok tokens node,
      do_block_translate tag tk ("with" :: rest) tagTok tokens = .ok node →
      (tk.run rest).1 ≠ [] ∧ node.extra_context = (tk.run rest).1) := by
  constructor
  · intro tag tk rest options asvar hseen hemp
    rw [parseOpts.eq_def]
    simp [hseen, hemp]
  · intro tag tk rest tagTok tokens node h
    unfold do_block_translate at h
    cases hopt : parseOpts tag tk ("with" :: rest) [] none with
    | error e =>
      rw [hopt] at h
      simp at h
    | ok res =>
      obtain ⟨options, asvar⟩ := res
      rw [hopt] at h
      by_cases hemp : (tk.run rest).1 = []
      · have hfail : parseOpts tag tk ("with" :: rest) [] none =
            .error (.withNeedsArg tag) := by
          rw [parseOpts.eq_def]
          simp [optSeen, hemp]
        rw [hfail] at hopt
        cases hopt
      · refine ⟨hemp, ?_⟩
        have hstep : parseOpts tag tk ("with" :: rest) [] none =
            parseOpts tag tk (tk.run rest).2 [("with", .kw (tk.run rest).1)] none := by
          rw [parseOpts.eq_def]
          simp [optSeen, hemp]
        rw [hstep] at hopt
        have hfind : findOpt options "with" = some (.kw (tk.run rest).1) :=
          parseOpts_preserves tag tk "with" (tk.run rest).2
            [("with", .kw (tk.run rest).1)] none (options, asvar)
            (.kw (tk.run rest).1) hopt rfl
        have hwb : withBindings options = (tk.run rest).1 := by
          unfold withBindings
          rw [hfind]
        have hnode : node.extra_context = withBindings options := by
          simp only [] at h
          split at h
          · split at h
            · simp at h
            · split at h
              · simp at h
              · injection h with h2
                rw [← h2]
          · split at h
            · simp at h
            · injection h with h2
              rw [← h2]
        rw [hwb] at hnode
        exact hnode

/-- Witness for the amended C4: the zero-binding with fails; a
one-binding with parses and the binding is the node's extra scope. -/
theorem claim_c4_amended_witness :
    parseOpts "blocktranslate" simpleTokKw ["with"] [] none =
      .error (.withNeedsArg "blocktranslate") ∧
    ((simpleTokKw.run ["a=1"]).1 ≠ [] ∧
      (⟨[("a", .litn 1)], [⟨.text, "hi"⟩], [], none, none, none, false, none,
        "blocktranslate"⟩ : BlockTranslateNode).extra_context =
        (simpleTokKw.run ["a=1"]).1) := by
  constructor
  · exact claim_c4_amended.1 "blocktranslate" simpleTokKw [] [] none rfl rfl
  · refine claim_c4_amended.2 "blocktranslate" simpleTokKw ["a=1"] wTagTok
      [⟨.text, "hi"⟩, wEndTok] _ ?_
    have h1 : parseOpts "blocktranslate" simpleTokKw ["with", "a=1"] [] none =
        parseOpts "blocktranslate" simpleTokKw [] [("with", .kw [("a", .litn 1)])] none := by
      rw [parseOpts.eq_def]
      rfl
    have h2 : parseOpts "blocktranslate" simpleTokKw []
        [("with", .kw [("a", .litn 1)])] none =
        .ok ([("with", .kw [("a", .litn 1)])], none) := by
      rw [parseOpts.eq_def]
    unfold do_block_translate
    rw [h1.trans h2]
    rfl

end AdminPlus
